import Mathlib

/-!
Shallow embedding of the mongodb-labeler label lifecycle engine
(`src/LabelerServer.ts`, `src/mongodb.ts`, `src/util/validators.ts`).

Modelling conventions:
* Mongo `ObjectId` values are modelled as `Nat`; signature byte strings as
  `List Nat`.
* JavaScript objects that reach `JSON.stringify` are modelled as ordered
  key/value lists (`Jobj`), since `JSON.stringify` serialises keys in
  insertion order and drops `undefined`-valued keys.
* JavaScript `Error` values (with their `name` and optional `cause` chain)
  are modelled by `JsErr`.
* The external collaborators (the secp256k1 signer, the `AtUri` parser from
  `@atproto/syntax`, the CID parser from `multiformats`) are parameters of
  the server context (`Ctx`).
* Fields holding JS `undefined` are modelled as absent (`Option.none`) in
  memory; the stored `exp` field keeps the full distinction between an
  absent key, BSON `null` (what the driver's default `ignoreUndefined:
  false` stores for an `undefined` value) and a string (`BsonExp`).
-/

namespace MongodbLabeler

/-- A JSON-serialisable JavaScript value as it appears in the objects this
program passes to `JSON.stringify`. -/
inductive Jv where
  | str (s : String)
  | num (n : Nat)
  | bool (b : Bool)
  | oid (n : Nat)
  | bytes (b : List Nat)
  | null
deriving DecidableEq, Repr

/-- A JavaScript object: keys with values, in insertion order. -/
abbrev Jobj := List (String × Jv)

/-- A JavaScript `Error`: its class name, message, and optional cause chain
(`LabelerServerError` stores the wrapped error in `cause`). -/
inductive JsErr where
  | base (name msg : String)
  | wrap (name msg : String) (cause : JsErr)
deriving DecidableEq, Repr

/-- The runtime class name of an error (what `instanceof` dispatches on). -/
def JsErr.name : JsErr → String
  | .base n _ => n
  | .wrap n _ _ => n

/-- The `message` property of an error. -/
def JsErr.msg : JsErr → String
  | .base _ m => m
  | .wrap _ m _ => m

/-- Build an `AtProtocolValidationError` (validators.ts). -/
def vErr (m : String) : JsErr := .base "AtProtocolValidationError" m

/-- JS `error instanceof AtProtocolValidationError`. -/
def isAtProtoErr (e : JsErr) : Bool := e.name = "AtProtocolValidationError"

/-- JS truthiness of an optional string (`if (s)`, `s ? a : b`):
`undefined` and the empty string are falsy. -/
def truthyStr : Option String → Bool
  | none => false
  | some s => s ≠ ""

/-- JS truthiness of an optional boolean. -/
def truthyBool : Option Bool → Bool
  | none => false
  | some b => b

/-- Characters matched by the JS `\s` class that can occur in the inputs we
model (ASCII whitespace plus NBSP). -/
def jsWhitespace (c : Char) : Bool :=
  c.val = 9 || c.val = 10 || c.val = 11 || c.val = 12 || c.val = 13 ||
  c.val = 32 || c.val = 160

/-- Prefix test on char lists (JS `String.prototype.startsWith`). -/
def leadsWith : List Char → List Char → Bool
  | [], _ => true
  | _ :: _, [] => false
  | p :: ps, c :: cs => p = c && leadsWith ps cs

/-- JS `str.split(sep)` for a single-character separator (JS semantics:
`"a:".split(":") = ["a", ""]`, `"".split(":") = [""]`). -/
def splitOnChar (sep : Char) : List Char → List (List Char)
  | [] => [[]]
  | c :: cs =>
    let r := splitOnChar sep cs
    if c = sep then [] :: r
    else
      match r with
      | [] => [[c]]
      | g :: gs => (c :: g) :: gs

/-- Strict lexicographic order on char lists (the order MongoDB's `$gt` and
JS `<`/`>` use on (ASCII) strings). -/
def lexLt : List Char → List Char → Bool
  | [], [] => false
  | [], _ :: _ => true
  | _ :: _, [] => false
  | a :: as_, b :: bs =>
    if a.val < b.val then true
    else if b.val < a.val then false
    else lexLt as_ bs

/-- String comparison `a < b` as MongoDB (`$gt`) and JS (`Date` comparison on
canonical ISO-8601 UTC strings) perform it: lexicographic. -/
def strLt (a b : String) : Bool := lexLt a.data b.data

/-- Join char-list segments with `':'` (JS `parts.slice(2).join(":")`). -/
def joinColon : List (List Char) → List Char
  | [] => []
  | [g] => g
  | g :: gs => g ++ ':' :: joinColon gs

/-- The characters rejected in a DID specific-id
(validators.ts:57, regex `[\s<>{}[\]|\\^` backtick `]`). -/
def didBadChar (c : Char) : Bool :=
  jsWhitespace c || c = '<' || c = '>' || c.val = 123 || c.val = 125 ||
  c = '[' || c = ']' || c = '|' || c = '\\' || c = '^' || c.val = 96

/-- Embeds `validateDid` (validators.ts:23-65). -/
def validateDid (did : String) : Except JsErr Unit :=
  if did = "" then .error (vErr "DID cannot be empty")
  else if ¬ leadsWith "did:".data did.data then
    .error (vErr "DID must start with \"did:\"")
  else
    let parts := splitOnChar ':' did.data
    if parts.length < 3 then
      .error (vErr "DID must have at least three parts: did:method:specific-id")
    else
      let method := (parts.drop 1).headD []
      if ¬ (method ≠ [] ∧ method.all fun c => 97 ≤ c.val ∧ c.val ≤ 122) then
        .error (vErr "DID method must contain only lowercase letters")
      else if method.length < 2 ∨ method.length > 32 then
        .error (vErr "DID method must be between 2 and 32 characters")
      else
        let specificId := joinColon (parts.drop 2)
        if specificId = [] then
          .error (vErr "DID specific-id cannot be empty")
        else if specificId.any didBadChar then
          .error (vErr "DID specific-id contains invalid characters")
        else if specificId.length > 512 then
          .error (vErr "DID specific-id is too long (max 512 chars)")
        else .ok ()

/-- UTF-8 byte length (JS `Buffer.from(val).length`). -/
def utf8Len (cs : List Char) : Nat := (cs.map Char.utf8Size).sum

/-- The punctuation class scanned over the suffix after a leading `'!'`
(validators.ts:151, regex `[.,:;#_'>` backtick `<\\|^]` — note: no `'!'`). -/
def restPunct (c : Char) : Bool :=
  c = '.' || c = ',' || c = ':' || c = ';' || c = '#' || c = '_' ||
  c.val = 39 || c = '>' || c.val = 96 || c = '<' || c = '\\' || c = '|' ||
  c = '^'

/-- The punctuation class scanned over values that do not start with `'!'`
(validators.ts:154 — the same class plus `'!'`). -/
def fullPunct (c : Char) : Bool := restPunct c || c = '!'

/-- Embeds `validateVal` (validators.ts:126-157). -/
def validateVal (val : String) : Except JsErr Unit :=
  if val = "" then .error (vErr "Label value cannot be empty")
  else if utf8Len val.data > 128 then
    .error (vErr "Label value cannot exceed 128 bytes")
  else if val.data.any jsWhitespace then
    .error (vErr "Label value cannot contain whitespace")
  else if ¬ val.data.all (fun c => c.val ≤ 127) then
    .error (vErr "Label value must only contain ASCII characters")
  else if leadsWith ['!'] val.data then
    if (val.data.drop 1).any restPunct then
      .error (vErr "Label value contains invalid punctuation characters")
    else .ok ()
  else if val.data.any fullPunct then
    .error (vErr "Label value contains invalid punctuation characters")
  else .ok ()

/-! Timestamp validation (validators.ts:168-247). -/

/-- The parsed components of a strict ISO-8601 timestamp. The timezone is
kept as its sign and hour/minute components (`Z` is `(false, 0, 0)`)
because date-fns validates the offset's minute component separately. -/
structure TsParts where
  year : Nat
  month : Nat
  day : Nat
  hour : Nat
  minute : Nat
  second : Nat
  fracDigits : List Nat
  tzNeg : Bool
  tzH : Nat
  tzM : Nat
deriving DecidableEq, Repr

/-- The signed timezone offset in minutes. -/
def TsParts.tzOffset (p : TsParts) : Int :=
  if p.tzNeg then -(((p.tzH * 60 + p.tzM : Nat) : Int)) else ((p.tzH * 60 + p.tzM : Nat) : Int)

def isDigit (c : Char) : Bool := 48 ≤ c.val && c.val ≤ 57

def digVal (c : Char) : Nat := c.val.toNat - 48

/-- Consume exactly two ASCII digits. -/
def parse2 : List Char → Option (Nat × List Char)
  | a :: b :: rest =>
    if isDigit a ∧ isDigit b then some (digVal a * 10 + digVal b, rest) else none
  | _ => none

/-- Consume exactly four ASCII digits. -/
def parse4 : List Char → Option (Nat × List Char)
  | a :: b :: c :: d :: rest =>
    if isDigit a ∧ isDigit b ∧ isDigit c ∧ isDigit d then
      some (digVal a * 1000 + digVal b * 100 + digVal c * 10 + digVal d, rest)
    else none
  | _ => none

/-- Consume one expected character. -/
def expectChar (c : Char) : List Char → Option (List Char)
  | x :: rest => if x = c then some rest else none
  | [] => none

/-- Consume a maximal run of ASCII digits. -/
def takeDigits : List Char → List Nat × List Char
  | [] => ([], [])
  | c :: rest =>
    if isDigit c then
      let (ds, r) := takeDigits rest
      (digVal c :: ds, r)
    else ([], c :: rest)

/-- Consume the optional fractional-seconds group `(\.\d+)?`. -/
def parseFracPart : List Char → Option (List Nat × List Char)
  | '.' :: rest =>
    let (ds, r) := takeDigits rest
    if ds = [] then none else some (ds, r)
  | other => some ([], other)

/-- Consume the timezone group `([+-]\d{2}:?\d{2}|Z)` at end of input,
returning the sign and the hour/minute components. -/
def parseTz : List Char → Option (Bool × Nat × Nat)
  | ['Z'] => some (false, 0, 0)
  | c :: rest =>
    if c = '+' ∨ c = '-' then
      match parse2 rest with
      | some (hh, rest2) =>
        let rest3 := match rest2 with
          | ':' :: r => r
          | r => r
        match parse2 rest3 with
        | some (mm, []) => some (c = '-', hh, mm)
        | _ => none
      | none => none
    else none
  | [] => none

/-- Parse a timestamp against the strict ISO-8601 shape of
validators.ts:174 (`^\d{4}-\d{2}-\d{2}T\d{2}:\d{2}:\d{2}(\.\d+)?([+-]\d{2}:?\d{2}|Z)$`). -/
def parseIsoTs (cs : List Char) : Option TsParts := do
  let (y, r1) ← parse4 cs
  let r2 ← expectChar '-' r1
  let (mo, r3) ← parse2 r2
  let r4 ← expectChar '-' r3
  let (d, r5) ← parse2 r4
  let r6 ← expectChar 'T' r5
  let (h, r7) ← parse2 r6
  let r8 ← expectChar ':' r7
  let (mi, r9) ← parse2 r8
  let r10 ← expectChar ':' r9
  let (s, r11) ← parse2 r10
  let (frac, r12) ← parseFracPart r11
  let (tzNeg, tzH, tzM) ← parseTz r12
  pure ⟨y, mo, d, h, mi, s, frac, tzNeg, tzH, tzM⟩

/-- Gregorian leap-year test (what date-fns `getDaysInMonth` honours). -/
def isLeap (y : Nat) : Bool := (y % 4 = 0 && ¬ y % 100 = 0) || y % 400 = 0

/-- Days in a month, leap years honoured (date-fns `getDaysInMonth`). -/
def daysInMonth (y m : Nat) : Nat :=
  if m = 2 then (if isLeap y then 29 else 28)
  else if m = 4 ∨ m = 6 ∨ m = 9 ∨ m = 11 then 30
  else 31

/-- Days in year `y` strictly before month `m`. -/
def monthDaysBefore (y m : Nat) : Nat :=
  ((List.range (m - 1)).map fun i => daysInMonth y (i + 1)).sum

/-- Days from 0001-01-01 to `y`-01-01 in the proleptic Gregorian calendar. -/
def daysBeforeYear (y : Nat) : Nat :=
  let n := y - 1
  n * 365 + n / 4 - n / 100 + n / 400

/-- Milliseconds contributed by the fractional-seconds digits (parseISO
keeps millisecond precision; further digits are truncated). -/
def fracMs (ds : List Nat) : Nat :=
  ds.headD 0 * 100 + ((ds.drop 1).headD 0) * 10 + ((ds.drop 2).headD 0)

/-- The instant a parsed timestamp denotes, in milliseconds on a linear
scale (UTC, offset applied). Only the order of instants matters for the
program's comparisons; the scale agrees with the Unix epoch scale up to one
constant shift. -/
def instantMs (p : TsParts) : Int :=
  let days : Nat := daysBeforeYear p.year + monthDaysBefore p.year p.month + (p.day - 1)
  let mins : Int := ((days * 1440 + p.hour * 60 + p.minute : Nat) : Int) - p.tzOffset
  mins * 60000 + ((p.second * 1000 + fracMs p.fracDigits : Nat) : Int)

/-- Two-digit zero-padded rendering (reconstructs `monthStr` from the parsed
month; the regex guarantees the source segment had exactly two digits). -/
def pad2 (n : Nat) : String := if n < 10 then "0" ++ toString n else toString n

/-- Four-digit zero-padded rendering of a year in 1900..9999. -/
def pad4 (n : Nat) : String := toString n

/-- Embeds `validateTimestamp` (validators.ts:168-228); `now` is the clock instant
in milliseconds (what `new Date()` denotes at validation time).

Faithful details: the code extracts minute and second via
`timePart.split(/[:.Z+-]/)[0].split(':')`, which yields only the hour
segment, so `parseInt` returns `NaN` for minute and second and their range
checks (lines 198-199) can never fire; they are therefore absent here.
`hour < 0` cannot fire on parsed digits. The `isValid(parseISO(timestamp))`
check (lines 207-211) is NOT redundant: date-fns `validateTime` rejects
minutes ≥ 60 and seconds ≥ 60, and `validateTimezone` rejects an offset
whose minute component exceeds 59 — all of which pass the ISO regex and the
dead explicit checks. (An hour of 24 is already rejected by the hour check;
date, month and day are re-validated identically to the checks above; the
offset's hour component is unconstrained by date-fns.) -/
def validateTimestamp (ts : String) (fieldName : String) (allowExpired : Bool) (now : Int) :
    Except JsErr Unit :=
  if ts = "" then .error (vErr (fieldName ++ " timestamp cannot be empty"))
  else
    match parseIsoTs ts.data with
    | none =>
      .error (vErr (fieldName ++ " timestamp must be in ISO 8601 format (e.g., \"2023-12-25T12:00:00Z\")"))
    | some p =>
      if p.year < 1900 ∨ p.year > 9999 then .error (vErr "Invalid year")
      else if p.month < 1 ∨ p.month > 12 then .error (vErr "Invalid month")
      else if p.hour > 23 then .error (vErr "Invalid hour")
      else if p.day < 1 ∨ p.day > daysInMonth p.year p.month then
        .error (vErr ("Invalid day for " ++ pad2 p.month ++ "/" ++ pad4 p.year ++
          " (max " ++ toString (daysInMonth p.year p.month) ++ " days)"))
      else if ¬ (p.minute ≤ 59 ∧ p.second ≤ 59 ∧ p.tzM ≤ 59) then
        .error (vErr (fieldName ++ " timestamp is not a valid date"))
      else if fieldName = "cts" then
        if now < instantMs p then
          .error (vErr "Creation timestamp cannot be in the future")
        else .ok ()
      else if fieldName = "exp" then
        if ¬ allowExpired ∧ instantMs p ≤ now then
          .error (vErr "Expiration timestamp must be in the future")
        else .ok ()
      else .ok ()

/-- Embeds `validateCts` (validators.ts:235-237). -/
def validateCts (cts : String) (now : Int) : Except JsErr Unit :=
  validateTimestamp cts "cts" false now

/-- Embeds `validateExp` (validators.ts:245-247). -/
def validateExp (exp : String) (allowExpired : Bool) (now : Int) : Except JsErr Unit :=
  validateTimestamp exp "exp" allowExpired now

/-- Embeds `validateCid` (validators.ts:98-114); `cidOk` stands for acceptance by
the external `multiformats` `CID.parse`. -/
def validateCid (cidOk : String → Bool) (cidStr : String) : Except JsErr Unit :=
  if cidStr = "" then .error (vErr "CID cannot be empty")
  else if ¬ (leadsWith ['Q'] cidStr.data ∨ leadsWith ['b'] cidStr.data) then
    .error (vErr "CID must start with 'Q' (CIDv0) or 'b' (CIDv1)")
  else if cidOk cidStr then .ok ()
  else .error (vErr "Invalid CID format")

/-- Modelled from the spec: `validateUri` is imported by `LabelerServer.ts`
from `./util/validators.js`, but no definition of it appears under `src/`.
Per the spec (§4.1): fails if empty; a `did:`-prefixed value delegates the
remaining checks to the DID rules; an `at://`-prefixed value delegates to
the AT-URI syntax rules via the protocol's native URI parser (`atUriOk`
stands for the external `@atproto/syntax` parser's acceptance); any other
shape fails with "must start with either did: or at://". -/
def validateUri (atUriOk : String → Bool) (uri : String) : Except JsErr Unit :=
  if uri = "" then .error (vErr "URI cannot be empty")
  else if leadsWith "did:".data uri.data then validateDid uri
  else if leadsWith "at://".data uri.data then
    if atUriOk uri then .ok () else .error (vErr "Invalid AT Protocol URI")
  else .error (vErr "URI must start with either did: or at://")

deriving instance DecidableEq for Except

/-! ## Data model and store (util/types.ts, mongodb.ts) -/

/-- The state of the `exp` field of a stored or in-memory label object.
BSON (and JS objects) distinguish a key that is absent, a key holding
`null`, and a key holding a string — and `findLabels`' expiration `$or`
treats the three differently, so the model must keep them apart. The
driver's default `ignoreUndefined: false` serialises a JS `undefined`
value as BSON `null`. In-memory `undefined` is modelled as `missing`. -/
inductive BsonExp where
  | missing
  | null
  | str (s : String)
deriving DecidableEq, Repr

/-- A stored label document (`SavedLabel` in util/types.ts plus the Mongo
`_id`, here `oid`). `cid`/`neg` model optional keys (`undefined` values
modelled as absent); `exp` keeps the full absent/null/string distinction. -/
structure StoredDoc where
  oid : Nat
  ver : Nat
  val : String
  uri : String
  cid : Option String
  neg : Option Bool
  src : String
  cts : String
  exp : BsonExp
  sig : List Nat
deriving DecidableEq, Repr

/-- The labels collection, in insertion order. -/
abbrev Store := List StoredDoc

/-- The in-memory signed label objects the service returns. The objects
returned by `deleteLabel` / `reverseLabelNegation` / `queryLabel` are
spreads of the stored document and so also carry the Mongo `_id`; `oid`
records that key when present. -/
structure SignedLabel where
  oid : Option Nat
  ver : Nat
  val : String
  uri : String
  cid : Option String
  neg : Option Bool
  exp : BsonExp
  cts : String
  src : String
  sig : List Nat
deriving DecidableEq, Repr

/-- The `exp` value of the in-memory label object `createLabel` builds:
`exp: data.exp` puts the key on the object with `undefined` when absent. -/
def jsExp : Option String → BsonExp
  | some e => .str e
  | none => .missing

/-- Embeds `CreateLabelData` (util/types.ts). -/
structure CreateLabelData where
  ver : Nat
  val : String
  uri : String
  cid : Option String
  neg : Option Bool
  src : Option String
  cts : Option String
  exp : Option String
deriving DecidableEq, Repr

/-- The server context: its DID, the signer-initialization outcome
(`_initializationError`'s underlying message when `Secp256k1Keypair.import`
failed), and the external collaborators (signer, AT-URI parser, CID
parser). -/
structure Ctx where
  did : String
  initErrMsg : Option String
  sign : Jobj → List Nat
  atUriOk : String → Bool
  cidOk : String → Bool

/-- The error `getInitializationPromise` throws when initialization failed
(LabelerServer.ts:97-100). -/
def initFailure (m : String) : JsErr :=
  .base "Error" ("Failed to initialize signer: " ++ m)

/-- One observable store/signer access, in the order performed. -/
inductive Eff where
  | dbFindOne
  | dbFindMany
  | dbInsert
  | dbUpdate
  | signerSign (payload : Jobj)
deriving DecidableEq, Repr

/-! ## JSON payloads passed to the signer -/

/-- The object `JSON.stringify` serialises in `_signLabel` when called from
`createLabel` (LabelerServer.ts:225-234): keys in insertion order. The
`exp` key is present on the object but holds `undefined` when `data.exp`
is absent, and `JSON.stringify` drops `undefined`-valued keys. -/
def createSignInput (data : CreateLabelData) (cts src : String) : Jobj :=
  [("ver", .num 1), ("val", .str data.val), ("uri", .str data.uri)]
  ++ (if truthyStr data.cid then [("cid", Jv.str (data.cid.getD ""))] else [])
  ++ (if truthyBool data.neg then [("neg", Jv.bool true)] else [])
  ++ (match data.exp with
      | some e => [("exp", Jv.str e)]
      | none => [])
  ++ [("cts", .str cts), ("src", .str src)]

/-- The stored document as the JS object `findOne`/`find` return: the full
record, including `_id` and the persisted signature. MongoDB returns `_id`
first and otherwise preserves insertion order; only key membership — never
key order — is relied on by the theorems below. -/
def storedDocJson (d : StoredDoc) : Jobj :=
  [("_id", .oid d.oid), ("ver", .num d.ver), ("val", .str d.val), ("uri", .str d.uri)]
  ++ (match d.cid with
      | some c => [("cid", Jv.str c)]
      | none => [])
  ++ (match d.neg with
      | some b => [("neg", Jv.bool b)]
      | none => [])
  ++ (match d.exp with
      | .str e => [("exp", Jv.str e)]
      | .null => [("exp", Jv.null)]
      | .missing => [])
  ++ [("cts", .str d.cts), ("src", .str d.src), ("sig", .bytes d.sig)]

/-- JS `{...obj, neg: v}`: replaces the value of an existing `neg` key in
place, else appends the key. -/
def spreadSetNeg (v : Bool) (o : Jobj) : Jobj :=
  if o.any (fun kv => kv.1 = "neg") then
    o.map fun kv => if kv.1 = "neg" then ("neg", Jv.bool v) else kv
  else o ++ [("neg", Jv.bool v)]

/-- The bytes-source signed in `deleteLabel` (LabelerServer.ts:352-360):
`JSON.stringify({...label, neg: true})` where `label` is the full stored
document returned by `findOne`. -/
def deleteSignInput (d : StoredDoc) : Jobj := spreadSetNeg true (storedDocJson d)

/-- The bytes-source signed in `reverseLabelNegation`
(LabelerServer.ts:418-425): `JSON.stringify({...label, neg: !label.neg})`
where `label` is the full stored document returned by `findLabels`. -/
def reverseSignInput (d : StoredDoc) : Jobj :=
  spreadSetNeg (! truthyBool d.neg) (storedDocJson d)

/-! ## MongoDBClient (mongodb.ts) -/

/-- The query shapes this program passes to `find`/`findOne`. -/
structure MongoQuery where
  oidEq : Option Nat
  oidGt : Option Nat
  expEq : Option String
deriving Repr

def matchesQuery (q : MongoQuery) (d : StoredDoc) : Bool :=
  (match q.oidEq with
   | none => true
   | some i => d.oid = i) &&
  (match q.oidGt with
   | none => true
   | some c => c < d.oid) &&
  (match q.expEq with
   | none => true
   | some e => d.exp = BsonExp.str e)

/-- The expiration `$or` of `findLabels` (mongodb.ts:412-422):
`{exp: {$exists: false}}` matches only a document without the `exp` key
(a BSON `null` value still exists), and `{exp: {$gt: <string>}}` matches
only string-typed values under BSON type bracketing — so a document whose
`exp` is `null` matches neither branch. -/
def mongoActive (nowIso : String) (d : StoredDoc) : Bool :=
  match d.exp with
  | .missing => true
  | .null => false
  | .str e => strLt nowIso e

structure FindOptions where
  sortByIdAsc : Bool
  limit : Option Nat
deriving Repr

/-- Insertion step for sorting by `_id` ascending. -/
def insertById (d : StoredDoc) : List StoredDoc → List StoredDoc
  | [] => [d]
  | e :: es => if d.oid ≤ e.oid then d :: e :: es else e :: insertById d es

/-- Sort by `_id` ascending (Mongo `sort: {_id: 1}`). -/
def sortById : List StoredDoc → List StoredDoc
  | [] => []
  | d :: ds => insertById d (sortById ds)

/-- Embeds `MongoDBClient.findLabels` (mongodb.ts:398-434): unless `allowExpired`
is truthy, the caller's filter is conjoined with the expiration `$or`;
sort and limit are then applied. `nowIso` is the query-time
`new Date().toISOString()`. -/
def dbFindLabels (store : Store) (q : MongoQuery) (allowExpired : Bool)
    (opts : FindOptions) (nowIso : String) : List StoredDoc :=
  let base := store.filter fun d => matchesQuery q d && (allowExpired || mongoActive nowIso d)
  let sorted := if opts.sortByIdAsc then sortById base else base
  match opts.limit with
  | none => sorted
  | some n => if n = 0 then sorted else sorted.take n

/-- Embeds `MongoDBClient.findOne` (mongodb.ts:442-454) with an `{_id: id}`
filter. -/
def dbFindOneById (store : Store) (id : Nat) : Option StoredDoc :=
  store.find? fun d => d.oid = id

/-- The `exp` value `saveLabel` persists (mongodb.ts:373):
`exp: label.exp ? new Date(label.exp).toISOString() : undefined` — the key
is always on the inserted object, and the driver's default
`ignoreUndefined: false` serialises the `undefined` as BSON `null`. So a
label saved without a (truthy) expiration is stored with `exp: null`. -/
def saveExp : BsonExp → BsonExp
  | .str e => if e = "" then .null else .str e
  | _ => .null

/-- Embeds `MongoDBClient.saveLabel` (mongodb.ts:361-389): assigns a fresh
`ObjectId` (`freshOid` — it overrides any `_id` already on the argument)
and inserts, with the `exp` key handling of `saveExp`. The
`new Date(...).toISOString()` normalisation of `cts` (and of a truthy
`exp`) is the identity on the canonical UTC strings this program stores;
no theorem below depends on a newly inserted document's timestamp
values. -/
def dbSaveLabel (store : Store) (doc : StoredDoc) (freshOid : Nat) : Store × StoredDoc :=
  let saved := { doc with oid := freshOid, exp := saveExp doc.exp }
  (store ++ [saved], saved)

/-- Embeds `MongoDBClient.updateLabel` (mongodb.ts:481-498):
`updateOne({_id: id}, {$set: payload})`, where the payload this program
passes always carries its own `_id` field. MongoDB semantics: `$set` on
`_id` with a value different from the matched document's `_id` is rejected
by the server (`_id` is immutable) and surfaces as a driver error, which
`updateLabel` wraps as "Failed to update label: ..."; with no matched
document the call succeeds with `modifiedCount` 0 and returns `false`. -/
def dbUpdateLabel (store : Store) (id : Nat) (payload : StoredDoc) :
    Except JsErr (Store × Bool) :=
  match store.find? (fun d => d.oid = id) with
  | none => .ok (store, false)
  | some d =>
    if payload.oid ≠ d.oid then
      .error (.base "Error"
        "Failed to update label: Performing an update on the path '_id' would modify the immutable field '_id'")
    else
      .ok (store.map (fun e => if e.oid = id then payload else e), true)

/-! ## LabelerServer operations (LabelerServer.ts) -/

/-- The stored document as a `SignedLabel` object
(`{...label, sig: new Uint8Array(label.sig)}` — the spread keeps `_id`). -/
def docToSigned (d : StoredDoc) : SignedLabel :=
  { oid := some d.oid, ver := d.ver, val := d.val, uri := d.uri, cid := d.cid,
    neg := d.neg, exp := d.exp, cts := d.cts, src := d.src, sig := d.sig }

/-- The `catch` of `createLabel` (LabelerServer.ts:248-256). -/
def wrapCreateErr (e : JsErr) : JsErr :=
  if isAtProtoErr e then .wrap "LabelerServerError" ("Label validation failed: " ++ e.msg) e
  else .wrap "LabelerServerError" "Failed to create label" e

/-- The validation prefix of `createLabel` (LabelerServer.ts:180-223),
returning the resolved `cts` and `src` on success. -/
def createChecks (ctx : Ctx) (data : CreateLabelData) (allowExpired : Bool)
    (now : Int) (nowIso : String) : Except JsErr (String × String) := do
  if data.ver ≠ 1 then
    Except.error (vErr "Label validation failed: Label version must be 1")
  else do
    validateVal data.val
    validateUri ctx.atUriOk data.uri
    (if leadsWith "did:".data data.uri.data then
      (if truthyStr data.cid then
        Except.error (vErr "CID cannot be provided for DID URIs")
      else Except.ok ())
    else if leadsWith "at://".data data.uri.data then
      (if truthyStr data.cid then validateCid ctx.cidOk (data.cid.getD "")
       else Except.ok ())  -- the no-CID at:// path only emits a console warning
    else Except.error (vErr "URI must start with either \"did:\" or \"at://\""))
    (if truthyStr data.src then validateDid (data.src.getD "") else Except.ok ())
    let cts := data.cts.getD nowIso
    validateCts cts now
    (if truthyStr data.exp then validateExp (data.exp.getD "") allowExpired now
     else Except.ok ())
    Except.ok (cts, data.src.getD ctx.did)

/-- Embeds `LabelerServer.createLabel` (LabelerServer.ts:178-257). `now`/`nowIso`
are the call-time clock as an instant and as `toISOString()`; `freshOid` is
the ObjectId the store assigns in `saveLabel` (the one `createLabel` itself
constructs is discarded because `saveLabel` overrides `_id`). -/
def createLabel (ctx : Ctx) (store : Store) (data : CreateLabelData)
    (allowExpired : Bool) (now : Int) (nowIso : String) (freshOid : Nat) :
    Except JsErr SignedLabel × Store × List Eff :=
  match ctx.initErrMsg with
  | some m => (.error (wrapCreateErr (initFailure m)), store, [])
  | none =>
    match createChecks ctx data allowExpired now nowIso with
    | .error e => (.error (wrapCreateErr e), store, [])
    | .ok (cts, src) =>
      let payload := createSignInput data cts src
      let sig := ctx.sign payload
      let doc : StoredDoc :=
        { oid := 0, ver := 1, val := data.val, uri := data.uri,
          cid := if truthyStr data.cid then data.cid else none,
          neg := if truthyBool data.neg then some true else none,
          src := src, cts := cts, exp := jsExp data.exp, sig := sig }
      let lbl : SignedLabel :=
        { oid := none, ver := 1, val := data.val, uri := data.uri,
          cid := doc.cid, neg := doc.neg, exp := jsExp data.exp, cts := cts,
          src := src, sig := sig }
      ((.ok lbl), (dbSaveLabel store doc freshOid).1, [.signerSign payload, .dbInsert])

/-- The `catch` of `queryLabels` (LabelerServer.ts:290-298). -/
def wrapQueryErr (e : JsErr) : JsErr :=
  if isAtProtoErr e then .wrap "LabelerServerError" ("Label validation failed: " ++ e.msg) e
  else .wrap "LabelerServerError" "Failed to query labels" e

/-- The optional query argument of `queryLabels`. -/
structure LabelQuery where
  exp : Option String
  allowExpired : Option Bool
deriving Repr

/-- The service-side expiration filter of `queryLabels`
(LabelerServer.ts:281-283): `!label.exp || new Date(label.exp) > new Date()`.
On the canonical ISO-8601 UTC strings this program stores, `Date` order is
lexicographic string order. -/
def serverActive (nowIso : String) (d : StoredDoc) : Bool :=
  match d.exp with
  | .str e => if e = "" then true else strLt nowIso e
  | _ => true

/-- Embeds `LabelerServer.queryLabels` (LabelerServer.ts:266-299). The caller's
`exp`/`allowExpired` keys are forwarded into the store filter (`exp` as an
exact-match condition). -/
def queryLabels (ctx : Ctx) (store : Store) (q : Option LabelQuery)
    (now : Int) (nowIso : String) :
    Except JsErr (List SignedLabel) × Store × List Eff :=
  match ctx.initErrMsg with
  | some m => (.error (wrapQueryErr (initFailure m)), store, [])
  | none =>
    let qe := match q with
      | none => none
      | some lq => lq.exp
    let qa := match q with
      | none => none
      | some lq => lq.allowExpired
    match (if truthyStr qe then validateExp (qe.getD "") (truthyBool qa) now
           else Except.ok ()) with
    | .error e => (.error (wrapQueryErr e), store, [])
    | .ok _ =>
      let labels := dbFindLabels store ⟨none, none, qe⟩ (truthyBool qa) ⟨false, none⟩ nowIso
      let filtered := if ! truthyBool qa then labels.filter (serverActive nowIso) else labels
      (.ok (filtered.map docToSigned), store, [.dbFindMany])

/-- Embeds `LabelerServer.queryLabel` (LabelerServer.ts:308-328). -/
def queryLabel (ctx : Ctx) (store : Store) (id : Nat) :
    Except JsErr (Option SignedLabel) × Store × List Eff :=
  match ctx.initErrMsg with
  | some m =>
    (.error (.wrap "LabelerServerError" "Failed to query label" (initFailure m)), store, [])
  | none =>
    match dbFindOneById store id with
    | none => (.ok none, store, [.dbFindOne])
    | some d => (.ok (some (docToSigned d)), store, [.dbFindOne])

/-- Embeds `LabelerServer.deleteLabel` (LabelerServer.ts:342-394). `freshOid` is
the ObjectId assigned to the inserted negation record. -/
def deleteLabel (ctx : Ctx) (store : Store) (id : Nat) (freshOid : Nat) :
    Except JsErr (Option SignedLabel) × Store × List Eff :=
  match ctx.initErrMsg with
  | some m =>
    (.error (.wrap "LabelerServerError" "Failed to delete label" (initFailure m)), store, [])
  | none =>
    match dbFindOneById store id with
    | none => (.ok none, store, [.dbFindOne])
    | some d =>
      let payload := deleteSignInput d
      let sig := ctx.sign payload
      let lbl : SignedLabel := { (docToSigned d) with neg := some true, sig := sig }
      ((.ok (some lbl)),
       (dbSaveLabel store { d with neg := some true, sig := sig } freshOid).1,
       [.dbFindOne, .signerSign payload, .dbInsert])

/-- Embeds `LabelerServer.reverseLabelNegation` (LabelerServer.ts:410-443).
Faithful detail: unlike every other operation, it does NOT await
`getInitializationPromise` before its store access; a failed initialization
only surfaces inside `_signLabel` (wrapped "Failed to sign label", then
"Failed to reverse label negation") once a record was found. The lookup
goes through `findLabels`, which applies the expiration filter since no
`allowExpired` key is passed. On the save path the `$set` payload carries a
freshly generated `_id` (LabelerServer.ts:427-433). -/
def reverseLabelNegation (ctx : Ctx) (store : Store) (id : Nat) (save : Bool)
    (freshOid : Nat) (nowIso : String) :
    Except JsErr (Option SignedLabel) × Store × List Eff :=
  let labels := dbFindLabels store ⟨some id, none, none⟩ false ⟨false, none⟩ nowIso
  match labels with
  | [] => (.ok none, store, [.dbFindMany])
  | d :: _ =>
    match ctx.initErrMsg with
    | some m =>
      (.error (.wrap "LabelerServerError" "Failed to reverse label negation"
        (.wrap "LabelerServerError" "Failed to sign label" (initFailure m))),
       store, [.dbFindMany])
    | none =>
      let negFlip := ! truthyBool d.neg
      let payload := reverseSignInput d
      let sig := ctx.sign payload
      let lbl : SignedLabel := { (docToSigned d) with neg := some negFlip, sig := sig }
      if save then
        match dbUpdateLabel store id { d with neg := some negFlip, sig := sig, oid := freshOid } with
        | .error e =>
          (.error (.wrap "LabelerServerError" "Failed to reverse label negation" e), store,
           [.dbFindMany, .signerSign payload, .dbUpdate])
        | .ok (store2, _) =>
          (.ok (some lbl), store2, [.dbFindMany, .signerSign payload, .dbUpdate])
      else
        (.ok (some lbl), store, [.dbFindMany, .signerSign payload])

/-- Embeds `LabelerServer.getLabelsAfterCursor` (LabelerServer.ts:453-479):
`findLabels({_id: {$gt: cursor}}, {limit, sort: {_id: 1}})`. -/
def getLabelsAfterCursor (ctx : Ctx) (store : Store) (cursor : Nat)
    (limit : Nat) (nowIso : String) :
    Except JsErr (List SignedLabel) × Store × List Eff :=
  match ctx.initErrMsg with
  | some m =>
    (.error (.wrap "LabelerServerError" "Failed to retrieve labels after cursor" (initFailure m)),
     store, [])
  | none =>
    let labels := dbFindLabels store ⟨none, some cursor, none⟩ false ⟨true, some limit⟩ nowIso
    (.ok (labels.map docToSigned), store, [.dbFindMany])

/-- The `LabelerServer` constructor checks (LabelerServer.ts:76-108):
missing `signingKey` / `mongoUri`, `validateDid` on the server DID, and the
`MongoDBClient` constructor's URI-scheme check (mongodb.ts:288-296). Every
failure inside the `try` is re-wrapped by the constructor's `catch` as
`LabelerServerError "Invalid server configuration: <message>"`. -/
def constructorCheck (did signingKey mongoUri : String) : Except JsErr String :=
  let inner : Except JsErr Unit :=
    if signingKey = "" then
      .error (.base "LabelerServerError" "Invalid server configuration: Missing required parameter: signingKey")
    else if mongoUri = "" then
      .error (.base "LabelerServerError" "Invalid server configuration: Missing required parameter: mongoUri")
    else
      match validateDid did with
      | .error e => .error e
      | .ok _ =>
        if ¬ (leadsWith "mongodb://".data mongoUri.data ∨
              leadsWith "mongodb+srv://".data mongoUri.data) then
          .error (.base "Error"
            "Invalid scheme, expected connection string to start with \"mongodb://\" or \"mongodb+srv://\"")
        else .ok ()
  match inner with
  | .error e => .error (.wrap "LabelerServerError" ("Invalid server configuration: " ++ e.msg) e)
  | .ok _ => .ok did

/-! ## Concrete fixtures used by witnesses and counterexamples -/

/-- A stand-in for the external secp256k1 signer: any concrete function of
the signed bytes-source works, since signatures are opaque to the service. -/
def sampleSign : Jobj → List Nat := fun o => [o.length]

/-- A server whose signer initialised successfully. -/
def okCtx : Ctx :=
  { did := "did:web:labeler.example", initErrMsg := none, sign := sampleSign,
    atUriOk := fun _ => true, cidOk := fun _ => true }

/-- A server whose signer initialisation failed. -/
def failedCtx : Ctx :=
  { did := "did:web:labeler.example", initErrMsg := some "bad key",
    sign := sampleSign, atUriOk := fun _ => true, cidOk := fun _ => true }

/-- A stored label document as `createLabel` persists them. -/
def sampleDoc : StoredDoc :=
  { oid := 7, ver := 1, val := "spam",
    uri := "at://did:web:ex.example/app.bsky.feed.post/abc",
    cid := some "bafyexamplecid", neg := some false,
    src := "did:web:labeler.example", cts := "2024-01-01T00:00:00.000Z",
    exp := BsonExp.missing, sig := [9, 9, 9] }

/-- The creation request whose unsigned fields agree with `sampleDoc`. -/
def sampleData : CreateLabelData :=
  { ver := 1, val := "spam", uri := "at://did:web:ex.example/app.bsky.feed.post/abc",
    cid := some "bafyexamplecid", neg := some false, src := some "did:web:labeler.example",
    cts := some "2024-01-01T00:00:00.000Z", exp := none }

/-- A creation request on a `did:` subject with no optional fields. -/
def didData : CreateLabelData :=
  { ver := 1, val := "spam", uri := "did:web:target.example",
    cid := none, neg := none, src := none,
    cts := some "2024-01-01T00:00:00.000Z", exp := none }

/-- A concrete clock: 2024-06-01T00:00:00Z as an instant. -/
def now24 : Int := instantMs ⟨2024, 6, 1, 0, 0, 0, [], false, 0, 0⟩

/-- The same clock as a canonical ISO string. -/
def nowIso24 : String := "2024-06-01T00:00:00.000Z"

/-- A stored label that expired before `nowIso24`. -/
def expiredDoc : StoredDoc :=
  { sampleDoc with oid := 8, exp := BsonExp.str "2024-01-02T00:00:00.000Z" }

/-- A stored label expiring after `nowIso24`. -/
def futureDoc : StoredDoc :=
  { sampleDoc with oid := 9, exp := BsonExp.str "2030-01-01T00:00:00.000Z" }

/-- A three-record store with distinct identities 7, 8, 9. -/
def store3 : Store := [sampleDoc, expiredDoc, futureDoc]

/-- Variant of `didData` with an `exp` equal to the clock `now24` ("exactly now"). -/
def expNowData : CreateLabelData := { didData with exp := some "2024-06-01T00:00:00Z" }

/-- Variant of `didData` with an `exp` strictly after `now24`. -/
def expFutureData : CreateLabelData := { didData with exp := some "2030-01-01T00:00:00Z" }

/-- The signed label `createLabel` returns for `didData` on `okCtx`. -/
def didLbl : SignedLabel :=
  { oid := none, ver := 1, val := "spam", uri := "did:web:target.example",
    cid := none, neg := none, exp := BsonExp.missing, cts := "2024-01-01T00:00:00.000Z",
    src := "did:web:labeler.example",
    sig := sampleSign (createSignInput didData "2024-01-01T00:00:00.000Z" "did:web:labeler.example") }

/-- The document `createLabel` persists for `didData` (no expiration): the
stored `exp` is BSON `null`, not an absent key. -/
def noExpDoc : StoredDoc :=
  { oid := 5, ver := 1, val := "spam", uri := "did:web:target.example",
    cid := none, neg := none, src := "did:web:labeler.example",
    cts := "2024-01-01T00:00:00.000Z", exp := BsonExp.null,
    sig := sampleSign (createSignInput didData "2024-01-01T00:00:00.000Z" "did:web:labeler.example") }

/-! ## Helper lemmas -/

theorem find?_append_left {α : Type} (p : α → Bool) (l l2 : List α) (a : α)
    (h : l.find? p = some a) : (l ++ l2).find? p = some a := by
  induction l with
  | nil => simp [List.find?] at h
  | cons x xs ih =>
    by_cases hx : p x
    · simpa [List.find?, hx] using by simpa [List.find?, hx] using h
    · simp only [List.find?, List.cons_append] at h ⊢
      simp only [hx] at h ⊢
      exact ih h

/-! ## Claim theorems -/

/-- C1: the spec claims the bytes-source passed to the signer is the
canonical encoding of exactly the unsigned-label fields (no store identity
field, no previous signature, identical across operations). The code
(`_signLabel`, LabelerServer.ts:156) signs `JSON.stringify(unsignedLabel)`,
and in `deleteLabel` the object is a spread of the full stored document:
the bytes-source contains the `_id` key and the previous `sig` key, while
the `createLabel` bytes-source for the same unsigned fields contains
neither — so the signed bytes also differ across operations. -/
theorem deleteLabel_signs_stored_document :
    (deleteLabel okCtx [sampleDoc] 7 99).2.2 =
      [Eff.dbFindOne, Eff.signerSign (deleteSignInput sampleDoc), Eff.dbInsert] ∧
    ("_id", Jv.oid 7) ∈ deleteSignInput sampleDoc ∧
    ("sig", Jv.bytes [9, 9, 9]) ∈ deleteSignInput sampleDoc ∧
    "_id" ∉ (createSignInput sampleData "2024-01-01T00:00:00.000Z" "did:web:labeler.example").map Prod.fst ∧
    "sig" ∉ (createSignInput sampleData "2024-01-01T00:00:00.000Z" "did:web:labeler.example").map Prod.fst := by
  decide

/-- C2: the spec claims `reverseLabelNegation(id, true)` updates the record
at `id` in place so that `queryLabel(id)` afterwards shows the flipped
`neg`. The code puts a freshly generated `_id` into the `$set` payload
(LabelerServer.ts:427-433), so MongoDB rejects the update (`_id` is
immutable), the whole call throws "Failed to reverse label negation", the
store is unchanged, and `queryLabel(id)` still shows the original record.
The preview half (`save = false`) behaves as claimed. -/
theorem reverseLabelNegation_save_breaks_update :
    (reverseLabelNegation okCtx [sampleDoc] 7 true 99 nowIso24).1 =
      .error (.wrap "LabelerServerError" "Failed to reverse label negation"
        (.base "Error"
          "Failed to update label: Performing an update on the path '_id' would modify the immutable field '_id'")) ∧
    (reverseLabelNegation okCtx [sampleDoc] 7 true 99 nowIso24).2.1 = [sampleDoc] ∧
    (queryLabel okCtx (reverseLabelNegation okCtx [sampleDoc] 7 true 99 nowIso24).2.1 7).1 =
      .ok (some (docToSigned sampleDoc)) ∧
    (reverseLabelNegation okCtx [sampleDoc] 7 false 99 nowIso24).1 =
      .ok (some { (docToSigned sampleDoc) with
                  neg := some true, sig := sampleSign (reverseSignInput sampleDoc) }) ∧
    (reverseLabelNegation okCtx [sampleDoc] 7 false 99 nowIso24).2.1 = [sampleDoc] := by
  decide

/-- C3 counterexample: the claim says the label returned by `deleteLabel`
carries a `cts` freshly generated at deletion time rather than the original
record's creation timestamp. The code (`{...label, neg: true}`,
LabelerServer.ts:352-355) never reads the clock: at this concrete input the
returned label's `cts` is exactly the stored record's creation timestamp. -/
theorem deleteLabel_cts_is_original :
    (deleteLabel okCtx [sampleDoc] 7 99).1 =
      .ok (some { (docToSigned sampleDoc) with
                  neg := some true, sig := sampleSign (deleteSignInput sampleDoc) }) ∧
    sampleDoc.cts = "2024-01-01T00:00:00.000Z" ∧
    ({ (docToSigned sampleDoc) with
       neg := some true, sig := sampleSign (deleteSignInput sampleDoc) } : SignedLabel).cts =
      "2024-01-01T00:00:00.000Z" := by
  decide

/-- C3 (amended): for every stored label found at `id`, `deleteLabel`
returns a signed label identical to the stored record — including its
original `cts`, which is carried over unchanged — except that `neg` is
forced to `true` (and `sig` is the fresh signature). -/
theorem deleteLabel_negates_and_keeps_fields (ctx : Ctx) (store : Store)
    (id freshOid : Nat) (d : StoredDoc) (hinit : ctx.initErrMsg = none)
    (hfind : dbFindOneById store id = some d) :
    (deleteLabel ctx store id freshOid).1 =
      .ok (some { (docToSigned d) with
        neg := some true, sig := ctx.sign (deleteSignInput d) }) := by
  simp [deleteLabel, hinit, hfind]

theorem deleteLabel_negates_and_keeps_fields_witness :
    (deleteLabel okCtx [sampleDoc] 7 99).1 =
      .ok (some { (docToSigned sampleDoc) with
                  neg := some true, sig := okCtx.sign (deleteSignInput sampleDoc) }) :=
  deleteLabel_negates_and_keeps_fields okCtx [sampleDoc] 7 99 sampleDoc rfl (by decide)

/-- C4: a successful `deleteLabel(id)` appends the negating label as a new
record under the newly assigned identity `freshOid` (distinct from every
existing identity, in particular from `id`), and the original record at
`id` is untouched: the point lookup of `id` afterwards returns exactly the
same document as before. -/
theorem deleteLabel_is_append_only (ctx : Ctx) (store : Store)
    (id freshOid : Nat) (d : StoredDoc) (hinit : ctx.initErrMsg = none)
    (hfind : dbFindOneById store id = some d)
    (hfresh : ∀ r ∈ store, r.oid ≠ freshOid) :
    (deleteLabel ctx store id freshOid).2.1 =
      store ++ [{ d with
        neg := some true, sig := ctx.sign (deleteSignInput d), oid := freshOid,
        exp := saveExp d.exp }] ∧
    dbFindOneById (deleteLabel ctx store id freshOid).2.1 id = some d ∧
    id ≠ freshOid := by
  refine ⟨by simp [deleteLabel, hinit, hfind, dbSaveLabel], ?_, ?_⟩
  · have h2 : (deleteLabel ctx store id freshOid).2.1 =
        store ++ [{ d with
          neg := some true, sig := ctx.sign (deleteSignInput d), oid := freshOid,
          exp := saveExp d.exp }] := by
      simp [deleteLabel, hinit, hfind, dbSaveLabel]
    rw [h2]
    exact find?_append_left _ store _ d hfind
  · have hmem : d ∈ store := List.mem_of_find?_eq_some hfind
    have hoid : d.oid = id := by
      have := List.find?_some hfind
      simpa using this
    intro he
    exact hfresh d hmem (hoid.trans he)

theorem deleteLabel_is_append_only_witness :
    (deleteLabel okCtx [sampleDoc] 7 99).2.1 =
      [sampleDoc] ++ [{ sampleDoc with
        neg := some true, sig := okCtx.sign (deleteSignInput sampleDoc), oid := 99,
        exp := saveExp sampleDoc.exp }] ∧
    dbFindOneById (deleteLabel okCtx [sampleDoc] 7 99).2.1 7 = some sampleDoc ∧
    7 ≠ 99 :=
  deleteLabel_is_append_only okCtx [sampleDoc] 7 99 sampleDoc rfl (by decide) (by decide)

/-- C5: the spec claims `validateVal` still rejects a `'!'` occurring after
the first position of a string that starts with `'!'`. The suffix scan
(validators.ts:151) omits `'!'` from its character class, so `"!a!b"` is
accepted; the other punctuation checks behave as described (`"a!b"` and
`"!a.b"` are rejected). This contradicts the code's own comment
("Allow '!' only at the start for system labels", validators.ts:148). -/
theorem validateVal_accepts_inner_bang :
    validateVal "!a!b" = .ok () ∧
    validateVal "a!b" = .error (vErr "Label value contains invalid punctuation characters") ∧
    validateVal "!a.b" = .error (vErr "Label value contains invalid punctuation characters") := by
  decide

/-- C9 counterexample: the claim says every operation using the signer or
the store — explicitly including `reverseLabelNegation` — fails with the
initialization error before any store or signer access when signer
initialization failed. `reverseLabelNegation` (LabelerServer.ts:410-443)
never awaits `getInitializationPromise`: on a failed-initialization server
it performs the store lookup first and, when no record matches, returns
`null` successfully instead of failing at all. -/
theorem reverseLabelNegation_skips_init_check :
    reverseLabelNegation failedCtx [] 7 false 99 nowIso24 =
      (.ok none, [], [Eff.dbFindMany]) := by
  decide

/-- C9 (amended): when signer initialization failed, `createLabel`,
`queryLabels`, `queryLabel`, `deleteLabel` and `getLabelsAfterCursor` all
fail — with the initialization error as the wrapped, inspectable cause —
before performing any store or signer access (empty effect trace), and
leave the store unchanged; `reverseLabelNegation` is the exception: it
performs its store lookup without checking initialization. -/
theorem init_failure_blocks_operations (ctx : Ctx) (store : Store) (m : String)
    (data : CreateLabelData) (ae : Bool) (now : Int) (nowIso : String)
    (id freshOid cursor limit : Nat) (q : Option LabelQuery)
    (h : ctx.initErrMsg = some m) :
    createLabel ctx store data ae now nowIso freshOid =
      (.error (wrapCreateErr (initFailure m)), store, []) ∧
    queryLabels ctx store q now nowIso =
      (.error (wrapQueryErr (initFailure m)), store, []) ∧
    queryLabel ctx store id =
      (.error (.wrap "LabelerServerError" "Failed to query label" (initFailure m)), store, []) ∧
    deleteLabel ctx store id freshOid =
      (.error (.wrap "LabelerServerError" "Failed to delete label" (initFailure m)), store, []) ∧
    getLabelsAfterCursor ctx store cursor limit nowIso =
      (.error (.wrap "LabelerServerError" "Failed to retrieve labels after cursor" (initFailure m)),
        store, []) := by
  refine ⟨?_, ?_, ?_, ?_, ?_⟩ <;> simp [createLabel, queryLabels, queryLabel,
    deleteLabel, getLabelsAfterCursor, h]

theorem init_failure_blocks_operations_witness :
    createLabel failedCtx [sampleDoc] sampleData false now24 nowIso24 99 =
      (.error (wrapCreateErr (initFailure "bad key")), [sampleDoc], []) ∧
    queryLabels failedCtx [sampleDoc] none now24 nowIso24 =
      (.error (wrapQueryErr (initFailure "bad key")), [sampleDoc], []) ∧
    queryLabel failedCtx [sampleDoc] 7 =
      (.error (.wrap "LabelerServerError" "Failed to query label" (initFailure "bad key")),
        [sampleDoc], []) ∧
    deleteLabel failedCtx [sampleDoc] 7 99 =
      (.error (.wrap "LabelerServerError" "Failed to delete label" (initFailure "bad key")),
        [sampleDoc], []) ∧
    getLabelsAfterCursor failedCtx [sampleDoc] 0 10 nowIso24 =
      (.error (.wrap "LabelerServerError" "Failed to retrieve labels after cursor"
        (initFailure "bad key")), [sampleDoc], []) :=
  init_failure_blocks_operations failedCtx [sampleDoc] "bad key" sampleData false
    now24 nowIso24 7 99 0 10 none rfl

theorem mem_insertById (d x : StoredDoc) (l : List StoredDoc) :
    x ∈ insertById d l ↔ x = d ∨ x ∈ l := by
  induction l with
  | nil => simp [insertById]
  | cons e es ih =>
    by_cases h : d.oid ≤ e.oid
    · simp only [insertById, if_pos h, List.mem_cons]
    · simp only [insertById, if_neg h, List.mem_cons, ih]
      tauto

theorem pairwise_insertById (d : StoredDoc) (l : List StoredDoc)
    (h : l.Pairwise fun a b => a.oid ≤ b.oid) :
    (insertById d l).Pairwise fun a b => a.oid ≤ b.oid := by
  induction l with
  | nil => simp [insertById]
  | cons e es ih =>
    rcases List.pairwise_cons.mp h with ⟨he, hes⟩
    by_cases hd : d.oid ≤ e.oid
    · simp only [insertById, if_pos hd]
      refine List.pairwise_cons.mpr ⟨?_, h⟩
      intro x hx
      rcases List.mem_cons.mp hx with rfl | hx
      · exact hd
      · exact le_trans hd (he x hx)
    · simp only [insertById, if_neg hd]
      refine List.pairwise_cons.mpr ⟨?_, ih hes⟩
      intro x hx
      rcases (mem_insertById d x es).mp hx with rfl | hx
      · omega
      · exact he x hx

theorem pairwise_sortById (l : List StoredDoc) :
    (sortById l).Pairwise fun a b => a.oid ≤ b.oid := by
  induction l with
  | nil => simp [sortById]
  | cons d ds ih => exact pairwise_insertById d (sortById ds) ih

theorem insertById_perm (d : StoredDoc) (l : List StoredDoc) :
    List.Perm (insertById d l) (d :: l) := by
  induction l with
  | nil => exact List.Perm.refl _
  | cons e es ih =>
    by_cases h : d.oid ≤ e.oid
    · simp [insertById, h]
    · simp only [insertById, if_neg h]
      exact (ih.cons e).trans (List.Perm.swap d e es)

theorem sortById_perm (l : List StoredDoc) : List.Perm (sortById l) l := by
  induction l with
  | nil => exact List.Perm.refl _
  | cons d ds ih => exact (insertById_perm d (sortById ds)).trans (ih.cons d)

theorem pairwise_lt_of_sorted_nodup (l : List StoredDoc)
    (hs : l.Pairwise fun a b => a.oid ≤ b.oid)
    (hn : (l.map fun d => d.oid).Nodup) :
    l.Pairwise fun a b => a.oid < b.oid := by
  have hne : l.Pairwise fun a b => a.oid ≠ b.oid := List.pairwise_map.mp hn
  exact (hs.and hne).imp fun h => lt_of_le_of_ne h.1 h.2

/-- C7: the claim says a stored label is returned by default `queryLabels`
iff it is active (no `exp`, or `exp` strictly after the query-time clock).
But `createLabel`/`saveLabel` always emit the `exp` key (`exp: data.exp`,
then `exp: ... : undefined`), and the driver's default
`ignoreUndefined: false` stores that `undefined` as BSON `null`; a `null`
`exp` matches neither branch of `findLabels`' expiration `$or`. So a label
this very program created without an expiration — active by the claim's
definition — is excluded from default `queryLabels` (and returned with
`allowExpired: true`), falsifying the iff. String-`exp` labels behave as
claimed (future kept, expired dropped). -/
theorem queryLabels_drops_label_created_without_exp :
    (createLabel okCtx [] didData false now24 nowIso24 5).2.1 = [noExpDoc] ∧
    noExpDoc.exp = BsonExp.null ∧
    (queryLabels okCtx [noExpDoc] none now24 nowIso24).1 = .ok [] ∧
    (queryLabels okCtx [noExpDoc] (some ⟨none, some true⟩) now24 nowIso24).1 =
      .ok [docToSigned noExpDoc] ∧
    (queryLabels okCtx [futureDoc, expiredDoc] none now24 nowIso24).1 =
      .ok [docToSigned futureDoc] := by
  decide

/-- C8 (amended): `getLabelsAfterCursor(cursor, limit)` returns exactly the
mapped store response, whose records all have identity strictly greater
than `cursor` and appear in strictly ascending identity order (given the
store's unique-`_id` invariant); the count is at most `limit` whenever
`limit` is nonzero — MongoDB treats `limit(0)` as "no limit" and then every
matching record is returned. -/
theorem getLabelsAfterCursor_contract (ctx : Ctx) (store : Store)
    (cursor limit : Nat) (nowIso : String) (hinit : ctx.initErrMsg = none)
    (hn : (store.map fun d => d.oid).Nodup) :
    (getLabelsAfterCursor ctx store cursor limit nowIso).1 =
      .ok ((dbFindLabels store ⟨none, some cursor, none⟩ false ⟨true, some limit⟩ nowIso).map docToSigned) ∧
    (∀ d ∈ dbFindLabels store ⟨none, some cursor, none⟩ false ⟨true, some limit⟩ nowIso,
      cursor < d.oid) ∧
    (dbFindLabels store ⟨none, some cursor, none⟩ false ⟨true, some limit⟩ nowIso).Pairwise
      (fun a b => a.oid < b.oid) ∧
    (limit ≠ 0 →
      (dbFindLabels store ⟨none, some cursor, none⟩ false ⟨true, some limit⟩ nowIso).length ≤ limit) := by
  have hsub2 : List.Sublist
      (dbFindLabels store ⟨none, some cursor, none⟩ false ⟨true, some limit⟩ nowIso)
      (sortById (store.filter fun d =>
        matchesQuery ⟨none, some cursor, none⟩ d && (false || mongoActive nowIso d))) := by
    by_cases h0 : limit = 0
    · simp only [dbFindLabels, h0, if_pos]
      exact List.Sublist.refl _
    · simp only [dbFindLabels, if_neg h0]
      exact List.take_sublist _ _
  refine ⟨by simp [getLabelsAfterCursor, hinit], ?_, ?_, ?_⟩
  · intro d hd
    have hd3 := (sortById_perm _).subset (hsub2.subset hd)
    have hd4 := List.of_mem_filter hd3
    simp only [matchesQuery, Bool.and_eq_true, decide_eq_true_eq] at hd4
    exact hd4.1.1.2
  · refine List.Pairwise.sublist hsub2 ?_
    refine pairwise_lt_of_sorted_nodup _ (pairwise_sortById _) ?_
    have hsub : List.Sublist (store.filter fun d =>
        matchesQuery ⟨none, some cursor, none⟩ d && (false || mongoActive nowIso d)) store :=
      List.filter_sublist _
    have hnf : ((store.filter fun d =>
        matchesQuery ⟨none, some cursor, none⟩ d && (false || mongoActive nowIso d)).map
        fun d => d.oid).Nodup :=
      (hsub.map _).nodup hn
    exact ((sortById_perm _).map _).nodup_iff.mpr hnf
  · intro h0
    simp only [dbFindLabels, if_neg h0]
    exact List.length_take_le _ _

/-- C8 counterexample: the claim quantifies over every limit, but MongoDB
treats `limit(0)` as "no limit": at `cursor = 0`, `limit = 0` on a store
with two matching (active) records the call returns both of them, so
"returns at most limit records" fails at this input. -/
theorem getLabelsAfterCursor_limit_zero :
    (getLabelsAfterCursor okCtx store3 0 0 nowIso24).1 =
      .ok ((dbFindLabels store3 ⟨none, some 0, none⟩ false ⟨true, some 0⟩ nowIso24).map docToSigned) ∧
    (dbFindLabels store3 ⟨none, some 0, none⟩ false ⟨true, some 0⟩ nowIso24).length = 2 ∧
    ¬ ((dbFindLabels store3 ⟨none, some 0, none⟩ false ⟨true, some 0⟩ nowIso24).length ≤ 0) := by
  decide

theorem getLabelsAfterCursor_contract_witness :
    (getLabelsAfterCursor okCtx store3 7 1 nowIso24).1 =
      .ok ((dbFindLabels store3 ⟨none, some 7, none⟩ false ⟨true, some 1⟩ nowIso24).map docToSigned) ∧
    (∀ d ∈ dbFindLabels store3 ⟨none, some 7, none⟩ false ⟨true, some 1⟩ nowIso24, 7 < d.oid) ∧
    (dbFindLabels store3 ⟨none, some 7, none⟩ false ⟨true, some 1⟩ nowIso24).Pairwise
      (fun a b => a.oid < b.oid) ∧
    (dbFindLabels store3 ⟨none, some 7, none⟩ false ⟨true, some 1⟩ nowIso24).length ≤ 1 :=
  ⟨(getLabelsAfterCursor_contract okCtx store3 7 1 nowIso24 rfl (by decide)).1,
   (getLabelsAfterCursor_contract okCtx store3 7 1 nowIso24 rfl (by decide)).2.1,
   (getLabelsAfterCursor_contract okCtx store3 7 1 nowIso24 rfl (by decide)).2.2.1,
   (getLabelsAfterCursor_contract okCtx store3 7 1 nowIso24 rfl (by decide)).2.2.2 (by decide)⟩

theorem except_bind_ok {α β : Type} (x : Except JsErr α) (f : α → Except JsErr β) (b : β)
    (h : (x >>= f) = .ok b) : ∃ a, x = .ok a ∧ f a = .ok b := by
  cases x with
  | error e => simp [Bind.bind, Except.bind] at h
  | ok a => exact ⟨a, rfl, by simpa [Bind.bind, Except.bind] using h⟩

theorem validateExp_behavior (e : String) (ae : Bool) (now : Int) (p : TsParts)
    (hp : parseIsoTs e.data = some p) (he : ¬ e = "")
    (hfmt : validateExp e true now = .ok ()) :
    validateExp e ae now =
      if ¬ ae ∧ instantMs p ≤ now then
        .error (vErr "Expiration timestamp must be in the future")
      else .ok () := by
  unfold validateExp validateTimestamp at hfmt ⊢
  rw [if_neg he] at hfmt ⊢
  simp only [hp] at hfmt ⊢
  by_cases h1 : p.year < 1900 ∨ p.year > 9999
  · rw [if_pos h1] at hfmt; exact absurd hfmt (by simp)
  rw [if_neg h1] at hfmt ⊢
  by_cases h2 : p.month < 1 ∨ p.month > 12
  · rw [if_pos h2] at hfmt; exact absurd hfmt (by simp)
  rw [if_neg h2] at hfmt ⊢
  by_cases h3 : p.hour > 23
  · rw [if_pos h3] at hfmt; exact absurd hfmt (by simp)
  rw [if_neg h3] at hfmt ⊢
  by_cases h4 : p.day < 1 ∨ p.day > daysInMonth p.year p.month
  · rw [if_pos h4] at hfmt; exact absurd hfmt (by simp)
  rw [if_neg h4] at hfmt ⊢
  by_cases h5 : ¬ (p.minute ≤ 59 ∧ p.second ≤ 59 ∧ p.tzM ≤ 59)
  · rw [if_pos h5] at hfmt; exact absurd hfmt (by simp)
  rw [if_neg h5]
  simp

/-- C6: with every other validation of the creation request passing, a
request whose `exp` resolves to an instant at or before the clock `now`
makes `createLabel` fail with the validation error saying the expiration
timestamp must be in the future — unless `allowExpired` is passed, in which
case the same `exp` is accepted; an `exp` strictly after `now` is always
accepted. -/
theorem createLabel_expiration_boundary (ctx : Ctx) (store : Store)
    (data : CreateLabelData) (allowExpired : Bool) (now : Int) (nowIso : String)
    (freshOid : Nat) (e : String) (p : TsParts)
    (hinit : ctx.initErrMsg = none)
    (hver : data.ver = 1)
    (hval : validateVal data.val = .ok ())
    (huri : validateUri ctx.atUriOk data.uri = .ok ())
    (hx : (if leadsWith "did:".data data.uri.data then
            (if truthyStr data.cid then
              Except.error (vErr "CID cannot be provided for DID URIs")
            else Except.ok ())
          else if leadsWith "at://".data data.uri.data then
            (if truthyStr data.cid then validateCid ctx.cidOk (data.cid.getD "")
             else Except.ok ())
          else Except.error (vErr "URI must start with either \"did:\" or \"at://\"")) =
          Except.ok ())
    (hsrc : (if truthyStr data.src then validateDid (data.src.getD "") else Except.ok ()) =
      Except.ok ())
    (hcts : validateCts (data.cts.getD nowIso) now = .ok ())
    (hexp : data.exp = some e) (he : e ≠ "")
    (hp : parseIsoTs e.data = some p)
    (hfmt : validateExp e true now = .ok ()) :
    (¬ allowExpired → instantMs p ≤ now →
      (createLabel ctx store data allowExpired now nowIso freshOid).1 =
        .error (.wrap "LabelerServerError"
          "Label validation failed: Expiration timestamp must be in the future"
          (vErr "Expiration timestamp must be in the future"))) ∧
    ((allowExpired = true ∨ now < instantMs p) →
      ∃ lbl, (createLabel ctx store data allowExpired now nowIso freshOid).1 = .ok lbl) := by
  have hvexp := validateExp_behavior e allowExpired now p hp he hfmt
  have hchecks : createChecks ctx data allowExpired now nowIso =
      if allowExpired = false ∧ instantMs p ≤ now then
        Except.error (vErr "Expiration timestamp must be in the future")
      else Except.ok (data.cts.getD nowIso, data.src.getD ctx.did) := by
    rw [createChecks]
    rw [if_neg (by omega : ¬ data.ver ≠ 1)]
    rw [hval, hx, hsrc, huri]
    simp only [Bind.bind, Except.bind, hcts, hexp, Option.getD_some, truthyStr, ne_eq, he,
      not_false_eq_true, if_true, hvexp]
    by_cases hc : allowExpired = false ∧ instantMs p ≤ now
    · simp [hc]
    · simp [hc]
  constructor
  · intro hae hle
    have hc : allowExpired = false ∧ instantMs p ≤ now := ⟨Bool.eq_false_iff.mpr hae, hle⟩
    simp only [createLabel, hinit, hchecks, if_pos hc]
    simp [wrapCreateErr, isAtProtoErr, vErr, JsErr.name, JsErr.msg]
  · intro hor
    have hc : ¬ (allowExpired = false ∧ instantMs p ≤ now) := by
      rcases hor with h | h
      · simp [h]
      · intro hcon
        exact absurd hcon.2 (not_le.mpr h)
    simp only [createLabel, hinit, hchecks, if_neg hc]
    exact ⟨_, rfl⟩

theorem createLabel_expiration_boundary_witness :
    (createLabel okCtx [] expNowData false now24 nowIso24 5).1 =
      .error (.wrap "LabelerServerError"
        "Label validation failed: Expiration timestamp must be in the future"
        (vErr "Expiration timestamp must be in the future")) ∧
    (∃ lbl, (createLabel okCtx [] expNowData true now24 nowIso24 5).1 = .ok lbl) ∧
    (∃ lbl, (createLabel okCtx [] expFutureData false now24 nowIso24 5).1 = .ok lbl) :=
  ⟨(createLabel_expiration_boundary okCtx [] expNowData false now24 nowIso24 5
      "2024-06-01T00:00:00Z" ⟨2024, 6, 1, 0, 0, 0, [], false, 0, 0⟩ rfl (by decide) (by decide)
      (by decide) (by decide) (by decide) (by decide) (by decide) (by decide) (by decide)
      (by decide)).1 (by decide) (by decide),
   (createLabel_expiration_boundary okCtx [] expNowData true now24 nowIso24 5
      "2024-06-01T00:00:00Z" ⟨2024, 6, 1, 0, 0, 0, [], false, 0, 0⟩ rfl (by decide) (by decide)
      (by decide) (by decide) (by decide) (by decide) (by decide) (by decide) (by decide)
      (by decide)).2 (Or.inl rfl),
   (createLabel_expiration_boundary okCtx [] expFutureData false now24 nowIso24 5
      "2030-01-01T00:00:00Z" ⟨2030, 1, 1, 0, 0, 0, [], false, 0, 0⟩ rfl (by decide) (by decide)
      (by decide) (by decide) (by decide) (by decide) (by decide) (by decide) (by decide)
      (by decide)).2 (Or.inr (by decide))⟩

theorem constructorCheck_did_ok (did sk uri did' : String)
    (h : constructorCheck did sk uri = .ok did') :
    validateDid did' = .ok () ∧ did' = did := by
  by_cases h1 : sk = ""
  · simp [constructorCheck, h1] at h
  by_cases h2 : uri = ""
  · simp [constructorCheck, h1, h2] at h
  cases hval : validateDid did with
  | error e => simp [constructorCheck, h1, h2, hval] at h
  | ok u =>
    by_cases h3 : leadsWith "mongodb://".data uri.data ∨ leadsWith "mongodb+srv://".data uri.data
    · have hd : did' = did := by
        simp [constructorCheck, h1, h2, hval, h3] at h
        exact h.symm
      subst hd
      cases u
      exact ⟨hval, rfl⟩
    · simp [constructorCheck, h1, h2, hval, h3] at h

theorem createLabel_src_valid (ctx : Ctx) (store : Store)
    (data : CreateLabelData) (ae : Bool) (now : Int) (nowIso : String)
    (freshOid : Nat) (lbl : SignedLabel)
    (hdid : validateDid ctx.did = .ok ())
    (hsrc : data.src ≠ some "")
    (hok : (createLabel ctx store data ae now nowIso freshOid).1 = .ok lbl) :
    ∃ nd, (createLabel ctx store data ae now nowIso freshOid).2.1 = store ++ [nd] ∧
      validateDid nd.src = .ok () ∧ nd.src = lbl.src := by
  cases hinit : ctx.initErrMsg with
  | some m => simp [createLabel, hinit] at hok
  | none =>
    cases hch : createChecks ctx data ae now nowIso with
    | error e => simp [createLabel, hinit, hch] at hok
    | ok pr =>
      obtain ⟨cts0, src0⟩ := pr
      have hsrc0 : src0 = data.src.getD ctx.did ∧ validateDid src0 = .ok () := by
        rw [createChecks] at hch
        by_cases hver : data.ver ≠ 1
        · simp [hver] at hch
        rw [if_neg hver] at hch
        obtain ⟨u1, hv1, hch⟩ := except_bind_ok _ _ _ hch
        obtain ⟨u2, hv2, hch⟩ := except_bind_ok _ _ _ hch
        obtain ⟨u3, hv3, hch⟩ := except_bind_ok _ _ _ hch
        obtain ⟨u4, hv4, hch⟩ := except_bind_ok _ _ _ hch
        obtain ⟨u5, hv5, hch⟩ := except_bind_ok _ _ _ hch
        obtain ⟨u6, hv6, hch⟩ := except_bind_ok _ _ _ hch
        have hpair : cts0 = data.cts.getD nowIso ∧ src0 = data.src.getD ctx.did := by
          simp [Pure.pure, Except.pure] at hch
          exact ⟨hch.1.symm, hch.2.symm⟩
        refine ⟨hpair.2, ?_⟩
        cases hds : data.src with
        | none =>
          rw [hpair.2, hds]
          simpa using hdid
        | some s =>
          have hs : s ≠ "" := by
            intro hcon
            exact hsrc (by rw [hds, hcon])
          rw [hds] at hv4
          rw [if_pos (by simp [truthyStr, hs])] at hv4
          cases u4
          rw [hpair.2, hds]
          simpa [hds] using hv4
      refine ⟨⟨freshOid, 1, data.val, data.uri,
        (if truthyStr data.cid then data.cid else none),
        (if truthyBool data.neg then some true else none),
        src0, cts0, saveExp (jsExp data.exp), ctx.sign (createSignInput data cts0 src0)⟩, ?_, ?_, ?_⟩
      · simp [createLabel, hinit, hch, dbSaveLabel]
      · exact hsrc0.2
      · have hlbl : lbl.src = src0 := by
          simp [createLabel, hinit, hch] at hok
          rw [← hok]
        simp [hlbl]

/-- C10: every label record persisted via `createLabel` carries a
syntactically valid DID in `src`: the constructor validates the server's
own DID (rejecting the configuration otherwise), an omitted `src` defaults
to that DID, and a caller-supplied `src` (which the `did:`-template type of
`CreateLabelData.src` makes non-empty) is validated with the same DID
validator before signing or persisting. -/
theorem persisted_src_is_valid_did :
    (∀ did sk uri did', constructorCheck did sk uri = .ok did' →
      validateDid did' = .ok () ∧ did' = did) ∧
    (∀ ctx store data ae now nowIso freshOid lbl,
      validateDid ctx.did = .ok () → data.src ≠ some "" →
      (createLabel ctx store data ae now nowIso freshOid).1 = .ok lbl →
      ∃ nd, (createLabel ctx store data ae now nowIso freshOid).2.1 = store ++ [nd] ∧
        validateDid nd.src = .ok () ∧ nd.src = lbl.src) :=
  ⟨constructorCheck_did_ok, fun ctx store data ae now nowIso freshOid lbl =>
    createLabel_src_valid ctx store data ae now nowIso freshOid lbl⟩

theorem persisted_src_is_valid_did_witness :
    (validateDid "did:web:labeler.example" = .ok () ∧
      "did:web:labeler.example" = "did:web:labeler.example") ∧
    (∃ nd, (createLabel okCtx [] didData false now24 nowIso24 5).2.1 = [] ++ [nd] ∧
      validateDid nd.src = .ok () ∧ nd.src = didLbl.src) :=
  ⟨persisted_src_is_valid_did.1 "did:web:labeler.example" "key0"
      "mongodb://localhost:27017" "did:web:labeler.example" (by decide),
   persisted_src_is_valid_did.2 okCtx [] didData false now24 nowIso24 5 didLbl
      (by decide) (by decide) (by decide)⟩

end MongodbLabeler
